import Mathlib

/-!
Verification of the Nietzsche distant-reading dashboard against its
natural-language specification.  The JavaScript presentation layer is shallowly
embedded: pure computations become Lean functions over `ℚ`, `String`, and
lists; the stateful data-loader cache becomes explicit state passing; fallible
lookups return `Option`.
-/

namespace Sentiment

/-- Result of `interpretSentiment` in the sentiment module: the interpretation
label together with the Bootstrap badge color it is rendered with. -/
structure Interpretation where
  interpretation : String
  color : String
deriving DecidableEq, Repr

/-- Embedding of `interpretSentiment(compound)` from the sentiment module:
the cascade of `>=` threshold tests assigning a label and a badge color. -/
def interpretSentiment (compound : ℚ) : Interpretation :=
  if compound ≥ 0.75 then ⟨"Very Positive", "success"⟩
  else if compound ≥ 0.5 then ⟨"Positive", "success"⟩
  else if compound ≥ 0.25 then ⟨"Moderately Positive", "info"⟩
  else if compound ≥ -0.25 then ⟨"Neutral", "secondary"⟩
  else if compound ≥ -0.5 then ⟨"Moderately Negative", "warning"⟩
  else if compound ≥ -0.75 then ⟨"Negative", "danger"⟩
  else ⟨"Very Negative", "danger"⟩

end Sentiment

namespace App

/-- Embedding of the `sentimentLabel` expression computed in `displayOverview`
(app.js quick-insights panel): a four-label cascade of strict `>` tests. -/
def overviewSentimentLabel (sentiment : ℚ) : String :=
  if sentiment > 0.5 then "Positive"
  else if sentiment > 0 then "Moderately Positive"
  else if sentiment > -0.5 then "Moderately Negative"
  else "Negative"

end App

namespace Sentiment

lemma interpret_very_pos (c : ℚ) (h : (0.75 : ℚ) ≤ c) :
    (interpretSentiment c).interpretation = "Very Positive" := by
  unfold interpretSentiment
  rw [if_pos h]

lemma interpret_pos (c : ℚ) (h : (0.5 : ℚ) ≤ c ∧ c < 0.75) :
    (interpretSentiment c).interpretation = "Positive" := by
  unfold interpretSentiment
  split_ifs with h1 h2 <;> first | rfl | linarith [h.1, h.2]

lemma interpret_mod_pos (c : ℚ) (h : (0.25 : ℚ) ≤ c ∧ c < 0.5) :
    (interpretSentiment c).interpretation = "Moderately Positive" := by
  unfold interpretSentiment
  split_ifs with h1 h2 h3 <;> first | rfl | linarith [h.1, h.2]

lemma interpret_neutral (c : ℚ) (h : (-0.25 : ℚ) ≤ c ∧ c < 0.25) :
    (interpretSentiment c).interpretation = "Neutral" := by
  unfold interpretSentiment
  split_ifs with h1 h2 h3 h4 <;> first | rfl | linarith [h.1, h.2]

lemma interpret_mod_neg (c : ℚ) (h : (-0.5 : ℚ) ≤ c ∧ c < -0.25) :
    (interpretSentiment c).interpretation = "Moderately Negative" := by
  unfold interpretSentiment
  split_ifs with h1 h2 h3 h4 h5 <;> first | rfl | linarith [h.1, h.2]

lemma interpret_neg (c : ℚ) (h : (-0.75 : ℚ) ≤ c ∧ c < -0.5) :
    (interpretSentiment c).interpretation = "Negative" := by
  unfold interpretSentiment
  split_ifs with h1 h2 h3 h4 h5 h6 <;> first | rfl | linarith [h.1, h.2]

lemma interpret_very_neg (c : ℚ) (h : c < (-0.75 : ℚ)) :
    (interpretSentiment c).interpretation = "Very Negative" := by
  unfold interpretSentiment
  split_ifs with h1 h2 h3 h4 h5 h6 <;> first | rfl | linarith

/-- C1: for every compound sentiment score c, `interpretSentiment c` assigns
exactly the label fixed by the spec's threshold contract: "Very Positive" when
c ≥ 0.75, "Positive" when 0.5 ≤ c < 0.75, "Moderately Positive" when
0.25 ≤ c < 0.5, "Neutral" when −0.25 ≤ c < 0.25, "Moderately Negative" when
−0.5 ≤ c < −0.25, "Negative" when −0.75 ≤ c < −0.5, and "Very Negative"
otherwise. -/
theorem interpretSentiment_matches_threshold_contract (c : ℚ) :
    ((0.75 : ℚ) ≤ c → (interpretSentiment c).interpretation = "Very Positive") ∧
    ((0.5 : ℚ) ≤ c ∧ c < 0.75 → (interpretSentiment c).interpretation = "Positive") ∧
    ((0.25 : ℚ) ≤ c ∧ c < 0.5 → (interpretSentiment c).interpretation = "Moderately Positive") ∧
    ((-0.25 : ℚ) ≤ c ∧ c < 0.25 → (interpretSentiment c).interpretation = "Neutral") ∧
    ((-0.5 : ℚ) ≤ c ∧ c < -0.25 → (interpretSentiment c).interpretation = "Moderately Negative") ∧
    ((-0.75 : ℚ) ≤ c ∧ c < -0.5 → (interpretSentiment c).interpretation = "Negative") ∧
    (c < (-0.75 : ℚ) → (interpretSentiment c).interpretation = "Very Negative") :=
  ⟨interpret_very_pos c, interpret_pos c, interpret_mod_pos c, interpret_neutral c,
    interpret_mod_neg c, interpret_neg c, interpret_very_neg c⟩

/-- C1 witness: at the concrete score 0.8 the contract branch for
"Very Positive" fires. -/
theorem interpretSentiment_matches_threshold_contract_witness :
    (interpretSentiment 0.8).interpretation = "Very Positive" :=
  (interpretSentiment_matches_threshold_contract 0.8).1 (by norm_num)

end Sentiment

namespace App

/-- C2 counterexample: at the compound score 0.8, which lies in [−1, 1], the
overview quick-insights label is "Positive" while `interpretSentiment` assigns
"Very Positive", so the two labelings disagree on [−1, 1]. -/
theorem overviewSentimentLabel_differs_from_interpretSentiment :
    ((-1 : ℚ) ≤ 0.8 ∧ (0.8 : ℚ) ≤ 1) ∧
      overviewSentimentLabel 0.8 ≠
        (Sentiment.interpretSentiment 0.8).interpretation := by
  refine ⟨⟨by norm_num, by norm_num⟩, ?_⟩
  have h1 : overviewSentimentLabel 0.8 = "Positive" := by
    unfold overviewSentimentLabel
    rw [if_pos (by norm_num)]
  have h2 : (Sentiment.interpretSentiment 0.8).interpretation = "Very Positive" := by
    unfold Sentiment.interpretSentiment
    rw [if_pos (by norm_num)]
  rw [h1, h2]
  decide

lemma overview_pos (c : ℚ) (h : (0.5 : ℚ) < c) :
    overviewSentimentLabel c = "Positive" := by
  unfold overviewSentimentLabel
  rw [if_pos h]

lemma overview_mod_pos (c : ℚ) (h : (0 : ℚ) < c ∧ c ≤ 0.5) :
    overviewSentimentLabel c = "Moderately Positive" := by
  unfold overviewSentimentLabel
  split_ifs with h1 h2 <;> first | rfl | linarith [h.1, h.2]

lemma overview_mod_neg (c : ℚ) (h : (-0.5 : ℚ) < c ∧ c ≤ 0) :
    overviewSentimentLabel c = "Moderately Negative" := by
  unfold overviewSentimentLabel
  split_ifs with h1 h2 h3 <;> first | rfl | linarith [h.1, h.2]

lemma overview_neg (c : ℚ) (h : c ≤ (-0.5 : ℚ)) :
    overviewSentimentLabel c = "Negative" := by
  unfold overviewSentimentLabel
  split_ifs with h1 h2 h3 <;> first | rfl | linarith

/-- C2 amended: the overview quick-insights label follows its own coarser
four-label scheme — "Positive" when c > 0.5, "Moderately Positive" when
0 < c ≤ 0.5, "Moderately Negative" when −0.5 < c ≤ 0, and "Negative" when
c ≤ −0.5 — rather than the seven-label threshold contract of
`interpretSentiment`. -/
theorem overviewSentimentLabel_four_label_scheme (c : ℚ) :
    ((0.5 : ℚ) < c → overviewSentimentLabel c = "Positive") ∧
    ((0 : ℚ) < c ∧ c ≤ 0.5 → overviewSentimentLabel c = "Moderately Positive") ∧
    ((-0.5 : ℚ) < c ∧ c ≤ 0 → overviewSentimentLabel c = "Moderately Negative") ∧
    (c ≤ (-0.5 : ℚ) → overviewSentimentLabel c = "Negative") :=
  ⟨overview_pos c, overview_mod_pos c, overview_mod_neg c, overview_neg c⟩

/-- C2 amended witness: at the concrete score 0.3 the "Moderately Positive"
branch of the four-label scheme fires. -/
theorem overviewSentimentLabel_four_label_scheme_witness :
    overviewSentimentLabel 0.3 = "Moderately Positive" :=
  (overviewSentimentLabel_four_label_scheme 0.3).2.1 ⟨by norm_num, by norm_num⟩

end App

namespace Comparative

/-- Modelled from the spec: the Jaccard similarity computed by the pipeline's
comparative analysis engine (the Python pipeline is not among the provided
source files).  Per spec §4.6, Jaccard = |A∩B| / |A∪B|, defined as 0 (not NaN)
when the union is empty. -/
def jaccard (A B : Finset String) : ℚ :=
  if (A ∪ B).card = 0 then 0
  else ((A ∩ B).card : ℚ) / ((A ∪ B).card : ℚ)

/-- Modelled from the spec: `similarityMatrix` as built by the pipeline's
comparative analysis engine (missing from the provided sources).  Per spec
§4.6 and §3, self-pairs are fixed at 1.0 and every other ordered pair holds
the Jaccard similarity of the two texts' vocabularies. -/
def similarityMatrix (vocab : String → Finset String) (i j : String) : ℚ :=
  if i = j then 1 else jaccard (vocab i) (vocab j)

lemma jaccard_comm (A B : Finset String) : jaccard A B = jaccard B A := by
  unfold jaccard
  rw [Finset.union_comm, Finset.inter_comm]

/-- C3: the similarity matrix consumed by the dashboard is symmetric —
matrix[i][j] = matrix[j][i] for every pair of text ids — and its diagonal is
exactly 1.0 for every text id. -/
theorem similarityMatrix_symmetric_unit_diagonal
    (vocab : String → Finset String) (i j : String) :
    similarityMatrix vocab i j = similarityMatrix vocab j i ∧
      similarityMatrix vocab i i = 1 := by
  constructor
  · unfold similarityMatrix
    by_cases h : i = j
    · rw [if_pos h, if_pos h.symm]
    · rw [if_neg h, if_neg (fun hji => h hji.symm), jaccard_comm]
  · unfold similarityMatrix
    rw [if_pos rfl]

end Comparative

namespace DataLoader

/-- One record of `comparative.vocabulary_overlap.pairs` in the analysis JSON:
the fields read by `renderVocabularyOverlap` in comparison.js, keyed by the
two text ids `text1` and `text2`. -/
structure OverlapPair where
  text1 : String
  text2 : String
  shared_words : Nat
  unique_to_text1 : Nat
  unique_to_text2 : Nat
  jaccard_similarity : ℚ
  overlap_percentage_text1 : ℚ
  overlap_percentage_text2 : ℚ
deriving DecidableEq, Repr

/-- Embedding of the pair search inside `getVocabularyOverlap` in
data-loader.js: `pairs.find(p => (p.text1 === text1Id && p.text2 === text2Id)
|| (p.text1 === text2Id && p.text2 === text1Id))`, `none` standing for the
`undefined` that `Array.prototype.find` yields on no match. -/
def findOverlapPair (pairs : List OverlapPair) (text1Id text2Id : String) :
    Option OverlapPair :=
  pairs.find? fun p =>
    (p.text1 == text1Id && p.text2 == text2Id) ||
      (p.text1 == text2Id && p.text2 == text1Id)

lemma findOverlapPair_comm (pairs : List OverlapPair) (a b : String) :
    findOverlapPair pairs a b = findOverlapPair pairs b a := by
  unfold findOverlapPair
  congr 1
  funext p
  exact Bool.or_comm _ _

end DataLoader

/-- One entry of a text's `key_concepts` array in the analysis JSON: a concept
term, its recognized spelling variants, and the aggregated occurrence count. -/
structure ConceptMatch where
  term : String
  variants : List String
  count : Nat
deriving DecidableEq, Repr

/-- One entry of the `texts` array in the analysis JSON, restricted to the
fields the embedded operations read: the stable id, the title, the word
counts, and the `key_concepts` array. -/
structure TextData where
  id : String
  title : String
  word_count : Nat
  unique_words : Nat
  key_concepts : List ConceptMatch
deriving DecidableEq, Repr

namespace DataLoader

/-- The `comparative.vocabulary_overlap` section of the analysis JSON: the
pairwise overlap records and the similarity matrix (a nested mapping from
text id to text id to a rational similarity). -/
structure VocabularyOverlapData where
  pairs : List OverlapPair
  similarity_matrix : List (String × List (String × ℚ))
deriving DecidableEq, Repr

/-- The `comparative` section of the analysis JSON. -/
structure ComparativeData where
  vocabulary_overlap : VocabularyOverlapData
deriving DecidableEq, Repr

/-- The whole analysis JSON document: `texts` plus `comparative`. -/
structure AnalysisData where
  texts : List TextData
  comparative : ComparativeData
deriving DecidableEq, Repr

/-- The module-level state of the data loader: the memoized `analysisData`
(`none` before the first successful load) plus a count of the fetches issued
so far, making "no further fetch" observable in the model. -/
structure LoaderState where
  analysisData : Option AnalysisData
  fetchCount : Nat
deriving DecidableEq, Repr

/-- Embedding of `loadData()` in data-loader.js: return the cached document
when present, otherwise fetch, cache, and return it.  `fetched` stands for the
document the single `fetch` of `data/nietzsche_analysis.json` would deliver;
the `isLoading` wait loop only matters for overlapping in-flight calls and is
not observable in this sequential model. -/
def loadData (fetched : AnalysisData) (s : LoaderState) :
    AnalysisData × LoaderState :=
  match s.analysisData with
  | some d => (d, s)
  | none => (fetched, ⟨some fetched, s.fetchCount + 1⟩)

/-- Embedding of `getTextById(textId)`: load (from cache when warm), then
`data.texts.find(t => t.id === textId)`. -/
def getTextById (fetched : AnalysisData) (s : LoaderState) (textId : String) :
    Option TextData × LoaderState :=
  ((loadData fetched s).1.texts.find? fun t => t.id == textId,
    (loadData fetched s).2)

/-- Embedding of `getAllTexts()`: load, then return `data.texts`. -/
def getAllTexts (fetched : AnalysisData) (s : LoaderState) :
    List TextData × LoaderState :=
  ((loadData fetched s).1.texts, (loadData fetched s).2)

/-- Embedding of `getComparativeData()`: load, then return `data.comparative`. -/
def getComparativeData (fetched : AnalysisData) (s : LoaderState) :
    ComparativeData × LoaderState :=
  ((loadData fetched s).1.comparative, (loadData fetched s).2)

/-- Embedding of `getVocabularyOverlap(text1Id, text2Id)`: load, then search
`data.comparative.vocabulary_overlap.pairs` for a record matching the two ids
in either order. -/
def getVocabularyOverlap (fetched : AnalysisData) (s : LoaderState)
    (text1Id text2Id : String) : Option OverlapPair × LoaderState :=
  (findOverlapPair (loadData fetched s).1.comparative.vocabulary_overlap.pairs
      text1Id text2Id,
    (loadData fetched s).2)

/-- C4: pairwise-overlap lookup is order-independent — in every loader state,
`getVocabularyOverlap` returns the same pair record (and the same state) for
the ids (a, b) as for (b, a), because a stored pair matches under either
assignment of text1 and text2. -/
theorem getVocabularyOverlap_comm (fetched : AnalysisData) (s : LoaderState)
    (a b : String) :
    getVocabularyOverlap fetched s a b = getVocabularyOverlap fetched s b a := by
  unfold getVocabularyOverlap
  rw [findOverlapPair_comm]

/-- C8: data loading is fetch-once and idempotent — after any `loadData` call,
a further `loadData` returns the identical cached document and state (in
particular the fetch count does not grow), and each derived accessor reads
from that one cached document without changing the state. -/
theorem loadData_fetch_once_idempotent (fetched : AnalysisData)
    (s₀ : LoaderState) (textId a b : String) :
    loadData fetched (loadData fetched s₀).2 = loadData fetched s₀ ∧
    (loadData fetched (loadData fetched s₀).2).2.fetchCount =
      (loadData fetched s₀).2.fetchCount ∧
    getTextById fetched (loadData fetched s₀).2 textId =
      ((loadData fetched s₀).1.texts.find? fun t => t.id == textId,
        (loadData fetched s₀).2) ∧
    getAllTexts fetched (loadData fetched s₀).2 =
      ((loadData fetched s₀).1.texts, (loadData fetched s₀).2) ∧
    getComparativeData fetched (loadData fetched s₀).2 =
      ((loadData fetched s₀).1.comparative, (loadData fetched s₀).2) ∧
    getVocabularyOverlap fetched (loadData fetched s₀).2 a b =
      (findOverlapPair
          (loadData fetched s₀).1.comparative.vocabulary_overlap.pairs a b,
        (loadData fetched s₀).2) := by
  obtain ⟨data?, n⟩ := s₀
  cases data? <;>
    simp [loadData, getTextById, getAllTexts, getComparativeData,
      getVocabularyOverlap]

end DataLoader

namespace App

/-- Embedding of `showComparison()` in app.js: filter `allTexts` down to the
selected ids; when fewer than 2 remain, return (`none`) without invoking
`Comparison.display`; otherwise `Comparison.display` receives the filtered
list (`some`). -/
def showComparison (allTexts : List TextData)
    (selectedTextsForComparison : Finset String) : Option (List TextData) :=
  if (allTexts.filter fun t =>
      decide (t.id ∈ selectedTextsForComparison)).length < 2 then none
  else some (allTexts.filter fun t => decide (t.id ∈ selectedTextsForComparison))

/-- Embedding of the compare button's click handler in `setupEventListeners`:
`showComparison` is called only when `selectedTextsForComparison.size >= 2`;
the result records what, if anything, reaches `Comparison.display`. -/
def compareBtnClick (allTexts : List TextData)
    (selectedTextsForComparison : Finset String) : Option (List TextData) :=
  if 2 ≤ selectedTextsForComparison.card then
    showComparison allTexts selectedTextsForComparison
  else none

lemma showComparison_some_length (allTexts : List TextData)
    (selected : Finset String) (shown : List TextData)
    (h : showComparison allTexts selected = some shown) : 2 ≤ shown.length := by
  unfold showComparison at h
  split_ifs at h with hlt
  injection h with h'
  subst h'
  omega

/-- C5: the consuming layer never invokes comparison with fewer than 2 texts —
the compare button's click handler does not call `showComparison` when fewer
than 2 texts are selected, `showComparison` itself returns without calling
`Comparison.display` when the filtered selection has fewer than 2 texts, and
any list that does reach `Comparison.display` has at least 2 texts. -/
theorem comparison_requires_two_texts (allTexts : List TextData)
    (selected : Finset String) :
    (selected.card < 2 → compareBtnClick allTexts selected = none) ∧
    ((allTexts.filter fun t => decide (t.id ∈ selected)).length < 2 →
      showComparison allTexts selected = none) ∧
    (∀ shown, showComparison allTexts selected = some shown →
      2 ≤ shown.length) ∧
    (∀ shown, compareBtnClick allTexts selected = some shown →
      2 ≤ shown.length) := by
  refine ⟨fun h => ?_, fun h => ?_, fun shown h => ?_, fun shown h => ?_⟩
  · unfold compareBtnClick
    rw [if_neg (by omega)]
  · unfold showComparison
    rw [if_pos h]
  · exact showComparison_some_length allTexts selected shown h
  · unfold compareBtnClick at h
    split_ifs at h with hge
    exact showComparison_some_length allTexts selected shown h

/-- C5 witness: with one selected id and no texts, the click handler does not
invoke `showComparison`. -/
theorem comparison_requires_two_texts_witness :
    compareBtnClick ([] : List TextData) {"bge"} = none :=
  (comparison_requires_two_texts [] {"bge"}).1 (by decide)

end App

namespace Comparison

/-- What `renderVocabularyOverlap` in comparison.js renders for its section:
the similarity-matrix table when the selection is not exactly 2 texts, the
"Vocabulary overlap data not available." fallback message when the pair lookup
yields `undefined`, and the detailed overlap card otherwise. -/
inductive VocabOverlapView where
  | similarityMatrixView
  | unavailable
  | details (overlap : DataLoader.OverlapPair)
deriving DecidableEq, Repr

/-- Embedding of `renderVocabularyOverlap(textsData, comparativeData)`:
for a selection of exactly 2 texts it looks the pair up through
`DataLoader.getVocabularyOverlap` (the find over the cached document's
`vocabulary_overlap.pairs`, here passed as `pairs`) and falls back to the
"data not available" message when the lookup returns `undefined`. -/
def renderVocabularyOverlap (textsData : List TextData)
    (pairs : List DataLoader.OverlapPair) : VocabOverlapView :=
  match textsData with
  | [t0, t1] =>
    match DataLoader.findOverlapPair pairs t0.id t1.id with
    | none => .unavailable
    | some overlap => .details overlap
  | _ => .similarityMatrixView

end Comparison

namespace DataLoader

lemma findOverlapPair_eq_none (pairs : List OverlapPair) (a b : String)
    (h : ∀ p ∈ pairs,
      ¬((p.text1 = a ∧ p.text2 = b) ∨ (p.text1 = b ∧ p.text2 = a))) :
    findOverlapPair pairs a b = none := by
  unfold findOverlapPair
  rw [List.find?_eq_none]
  intro p hp
  simp only [Bool.or_eq_true, Bool.and_eq_true, beq_iff_eq]
  exact h p hp

/-- C7: a missing text id in a pairwise lookup is fatal only to that single
operation — when no stored pair record matches the two ids in either order,
`getVocabularyOverlap` returns `undefined` (`none`; it does not throw) without
touching the loader state, and `renderVocabularyOverlap` then renders the
"data not available" fallback for its section instead of the overlap details. -/
theorem missing_pair_yields_fallback (fetched : AnalysisData) (s : LoaderState)
    (t0 t1 : TextData)
    (h : ∀ p ∈ (loadData fetched s).1.comparative.vocabulary_overlap.pairs,
      ¬((p.text1 = t0.id ∧ p.text2 = t1.id) ∨
        (p.text1 = t1.id ∧ p.text2 = t0.id))) :
    getVocabularyOverlap fetched s t0.id t1.id =
      (none, (loadData fetched s).2) ∧
    Comparison.renderVocabularyOverlap [t0, t1]
        (loadData fetched s).1.comparative.vocabulary_overlap.pairs =
      Comparison.VocabOverlapView.unavailable := by
  have hnone := findOverlapPair_eq_none _ t0.id t1.id h
  constructor
  · unfold getVocabularyOverlap
    rw [hnone]
  · have hred : Comparison.renderVocabularyOverlap [t0, t1]
        (loadData fetched s).1.comparative.vocabulary_overlap.pairs =
        match findOverlapPair
            (loadData fetched s).1.comparative.vocabulary_overlap.pairs
            t0.id t1.id with
        | none => Comparison.VocabOverlapView.unavailable
        | some overlap => Comparison.VocabOverlapView.details overlap := rfl
    rw [hred, hnone]

/-- C7 witness: with an empty pair list and a cold loader, the lookup for the
pair of sample texts returns `none` and the render falls back. -/
theorem missing_pair_yields_fallback_witness :
    getVocabularyOverlap ⟨[], ⟨⟨[], []⟩⟩⟩ ⟨none, 0⟩
        (⟨"antichrist", "The Antichrist", 4, 2, []⟩ : TextData).id
        (⟨"ecce-homo", "Ecce Homo", 5, 3, []⟩ : TextData).id =
      (none, (loadData ⟨[], ⟨⟨[], []⟩⟩⟩ ⟨none, 0⟩).2) ∧
    Comparison.renderVocabularyOverlap
        [⟨"antichrist", "The Antichrist", 4, 2, []⟩,
          ⟨"ecce-homo", "Ecce Homo", 5, 3, []⟩]
        (loadData ⟨[], ⟨⟨[], []⟩⟩⟩ ⟨none, 0⟩).1.comparative.vocabulary_overlap.pairs =
      Comparison.VocabOverlapView.unavailable :=
  missing_pair_yields_fallback ⟨[], ⟨⟨[], []⟩⟩⟩ ⟨none, 0⟩ _ _
    (by intro p hp; simp [loadData] at hp)

end DataLoader

namespace NGrams

/-- One step of the `allConcepts.add(c.term)` loop in
`displayConceptComparison`: a JS `Set` keeps insertion order and ignores a
term already present, so adding appends the term only when it is new. -/
def addConceptTerms (acc : List String) (concepts : List ConceptMatch) :
    List String :=
  concepts.foldl (fun acc c => if c.term ∈ acc then acc else acc ++ [c.term]) acc

/-- Embedding of the row-set computation of `displayConceptComparison` in
ngrams.js: `Array.from` of the `Set` collecting every `key_concepts` term of
every selected text, in first-insertion order. -/
def collectConceptTerms (textsData : List TextData) : List String :=
  textsData.foldl (fun acc text => addConceptTerms acc text.key_concepts) []

/-- Embedding of the per-cell count in `displayConceptComparison`:
`text.key_concepts.find(c => c.term === conceptTerm)`, then
`concept ? concept.count : 0`. -/
def conceptCount (text : TextData) (term : String) : Nat :=
  match text.key_concepts.find? (fun c => c.term == term) with
  | some c => c.count
  | none => 0

/-- Embedding of the cell rendering in `displayConceptComparison`:
`count > 0 ? count : '—'`. -/
def conceptCell (count : Nat) : String :=
  if count > 0 then toString count else "—"

lemma mem_addConceptTerms (concepts : List ConceptMatch) (acc : List String)
    (x : String) :
    x ∈ addConceptTerms acc concepts ↔
      x ∈ acc ∨ ∃ c ∈ concepts, c.term = x := by
  induction concepts generalizing acc with
  | nil => simp [addConceptTerms]
  | cons c cs ih =>
    by_cases hc : c.term ∈ acc
    · rw [show addConceptTerms acc (c :: cs) = addConceptTerms acc cs from by
        simp [addConceptTerms, hc]]
      rw [ih]
      constructor
      · rintro (h | ⟨d, hd, he⟩)
        · exact Or.inl h
        · exact Or.inr ⟨d, List.mem_cons_of_mem _ hd, he⟩
      · rintro (h | ⟨d, hd, he⟩)
        · exact Or.inl h
        · rcases List.mem_cons.mp hd with rfl | hd'
          · exact Or.inl (he ▸ hc)
          · exact Or.inr ⟨d, hd', he⟩
    · rw [show addConceptTerms acc (c :: cs) =
          addConceptTerms (acc ++ [c.term]) cs from by
        simp [addConceptTerms, hc]]
      rw [ih]
      simp only [List.mem_append, List.mem_singleton]
      constructor
      · rintro ((h | h) | ⟨d, hd, he⟩)
        · exact Or.inl h
        · exact Or.inr ⟨c, List.mem_cons_self _ _, h.symm⟩
        · exact Or.inr ⟨d, List.mem_cons_of_mem _ hd, he⟩
      · rintro (h | ⟨d, hd, he⟩)
        · exact Or.inl (Or.inl h)
        · rcases List.mem_cons.mp hd with rfl | hd'
          · exact Or.inl (Or.inr he.symm)
          · exact Or.inr ⟨d, hd', he⟩

lemma nodup_addConceptTerms (concepts : List ConceptMatch) (acc : List String)
    (h : acc.Nodup) : (addConceptTerms acc concepts).Nodup := by
  induction concepts generalizing acc with
  | nil => exact h
  | cons c cs ih =>
    by_cases hc : c.term ∈ acc
    · rw [show addConceptTerms acc (c :: cs) = addConceptTerms acc cs from by
        simp [addConceptTerms, hc]]
      exact ih acc h
    · rw [show addConceptTerms acc (c :: cs) =
          addConceptTerms (acc ++ [c.term]) cs from by
        simp [addConceptTerms, hc]]
      refine ih _ ?_
      simp [List.nodup_append, h, hc]

lemma mem_collect_aux (texts : List TextData) (acc : List String) (x : String) :
    x ∈ texts.foldl (fun a t => addConceptTerms a t.key_concepts) acc ↔
      x ∈ acc ∨ ∃ t ∈ texts, ∃ c ∈ t.key_concepts, c.term = x := by
  induction texts generalizing acc with
  | nil => simp
  | cons t ts ih =>
    rw [List.foldl_cons, ih, mem_addConceptTerms]
    constructor
    · rintro ((h | ⟨c, hc, he⟩) | ⟨u, hu, hrest⟩)
      · exact Or.inl h
      · exact Or.inr ⟨t, List.mem_cons_self _ _, c, hc, he⟩
      · exact Or.inr ⟨u, List.mem_cons_of_mem _ hu, hrest⟩
    · rintro (h | ⟨u, hu, hrest⟩)
      · exact Or.inl (Or.inl h)
      · rcases List.mem_cons.mp hu with rfl | hu'
        · exact Or.inl (Or.inr hrest)
        · exact Or.inr ⟨u, hu', hrest⟩

lemma nodup_collect_aux (texts : List TextData) (acc : List String)
    (h : acc.Nodup) :
    (texts.foldl (fun a t => addConceptTerms a t.key_concepts) acc).Nodup := by
  induction texts generalizing acc with
  | nil => exact h
  | cons t ts ih => exact ih _ (nodup_addConceptTerms _ _ h)

/-- C9: in the concept comparison table, the rows are exactly the union of the
selected texts' `key_concepts` terms with no duplicates, and a text whose
`key_concepts` lacks a row's term is reported with count 0, rendered as a dash,
rather than being omitted or raising an error. -/
theorem conceptComparison_rows_union_nodup (textsData : List TextData) :
    (collectConceptTerms textsData).Nodup ∧
    (∀ term, term ∈ collectConceptTerms textsData ↔
      ∃ t ∈ textsData, ∃ c ∈ t.key_concepts, c.term = term) ∧
    (∀ t : TextData, ∀ term : String,
      (∀ c ∈ t.key_concepts, c.term ≠ term) →
        conceptCount t term = 0 ∧ conceptCell (conceptCount t term) = "—") := by
  refine ⟨nodup_collect_aux textsData [] (by simp),
    fun term => ?_, fun t term h => ?_⟩
  · rw [collectConceptTerms, mem_collect_aux]
    simp
  · have hnone : t.key_concepts.find? (fun c => c.term == term) = none := by
      rw [List.find?_eq_none]
      intro c hc
      simp only [beq_iff_eq]
      exact h c hc
    have hcount : conceptCount t term = 0 := by
      unfold conceptCount
      rw [hnone]
    exact ⟨hcount, by rw [hcount]; rfl⟩

/-- C9 witness: a text with an empty `key_concepts` list reports count 0 for
the term "übermensch", rendered as a dash. -/
theorem conceptComparison_rows_union_nodup_witness :
    conceptCount ⟨"ecce-homo", "Ecce Homo", 5, 3, []⟩ "übermensch" = 0 ∧
      conceptCell
        (conceptCount ⟨"ecce-homo", "Ecce Homo", 5, 3, []⟩ "übermensch") = "—" :=
  (conceptComparison_rows_union_nodup []).2.2
    ⟨"ecce-homo", "Ecce Homo", 5, 3, []⟩ "übermensch" (by simp)

end NGrams

namespace Comparison

/-- A JSON-like value, enough to model the JS objects that
`getNestedValue(obj, path)` traverses: numbers, strings, and objects. -/
inductive JValue where
  | num : ℚ → JValue
  | str : String → JValue
  | obj : List (String × JValue) → JValue

/-- One step of `current?.[key]`: field access on an object, `undefined`
(`none`) on a non-object or a missing key. -/
def JValue.lookup (v : JValue) (key : String) : Option JValue :=
  match v with
  | .obj fields => (fields.find? fun kv => kv.1 == key).map (fun kv => kv.2)
  | _ => none

/-- Splitting a character sequence at every '.', accumulating the current
segment in reverse: the character-level meaning of `path.split('.')`. -/
def splitDotsAux : List Char → List Char → List String
  | [], acc => [String.mk acc.reverse]
  | c :: rest, acc =>
    if c = '.' then String.mk acc.reverse :: splitDotsAux rest []
    else splitDotsAux rest (c :: acc)

/-- `path.split('.')` on a path string. -/
def splitDots (path : String) : List String :=
  splitDotsAux path.data []

/-- Embedding of `getNestedValue(obj, path)` in comparison.js:
`path.split('.').reduce((current, key) => current?.[key], obj)`. -/
def getNestedValue (obj : JValue) (path : String) : Option JValue :=
  (splitDots path).foldl
    (fun current key => current.bind fun v => v.lookup key) (some obj)

/-- The numeric reading of a JValue; `none` models the NaN the JS arithmetic
would produce on a non-numeric metric. -/
def JValue.asNum : JValue → Option ℚ
  | .num q => some q
  | _ => none

/-- The `values` array of one metric row in `renderStyleComparison`:
`textsData.map(text => getNestedValue(text, metric.path))`, kept only when
every extraction yields a number (otherwise the JS min/max would be NaN). -/
def extractMetricValues (textsData : List JValue) (path : String) :
    Option (List ℚ) :=
  textsData.mapM fun text => (getNestedValue text path).bind JValue.asNum

/-- Embedding of the per-cell highlight in `renderStyleComparison`:
`val === max ? 'bg-success bg-opacity-10' : val === min ?
'bg-primary bg-opacity-10' : ''`. -/
def styleCellClass (val minVal maxVal : ℚ) : String :=
  if val = maxVal then "bg-success bg-opacity-10"
  else if val = minVal then "bg-primary bg-opacity-10"
  else ""

/-- One rendered row of the style-metrics comparison table: the extracted
values, `Math.min(...values)`, `Math.max(...values)`, `max - min`, and the
highlight class of every cell. -/
structure StyleDeltaRow where
  values : List ℚ
  min : ℚ
  max : ℚ
  range : ℚ
  cells : List String
deriving DecidableEq, Repr

/-- Embedding of the per-metric row computation in `renderStyleComparison`
(comparison.js): extract the metric at `path` from every text, take
`Math.min`/`Math.max` over the spread values (the fold of binary min/max over
a non-empty list), report `range = max - min`, and compute each cell's
highlight class.  `none` models the cases the table never renders meaningfully
(no texts, or a missing/non-numeric metric, where JS would propagate NaN). -/
def styleDeltaRow (textsData : List JValue) (path : String) :
    Option StyleDeltaRow :=
  match extractMetricValues textsData path with
  | none => none
  | some [] => none
  | some (v :: vs) =>
    some
      { values := v :: vs
        min := vs.foldl Min.min v
        max := vs.foldl Max.max v
        range := vs.foldl Max.max v - vs.foldl Min.min v
        cells := (v :: vs).map fun val =>
          styleCellClass val (vs.foldl Min.min v) (vs.foldl Max.max v) }

lemma foldl_min_mem {α : Type} [LinearOrder α] (l : List α) (a : α) :
    l.foldl Min.min a ∈ a :: l := by
  induction l generalizing a with
  | nil => simp
  | cons b bs ih =>
    rw [List.foldl_cons]
    have h := ih (Min.min a b)
    simp only [List.mem_cons] at h ⊢
    rcases h with h | h
    · rcases min_choice a b with hm | hm
      · exact Or.inl (h.trans hm)
      · exact Or.inr (Or.inl (h.trans hm))
    · exact Or.inr (Or.inr h)

lemma foldl_min_le {α : Type} [LinearOrder α] (l : List α) (a : α) :
    ∀ x ∈ a :: l, l.foldl Min.min a ≤ x := by
  induction l generalizing a with
  | nil =>
    intro x hx
    simp only [List.mem_cons, List.not_mem_nil, or_false] at hx
    simp [hx]
  | cons b bs ih =>
    intro x hx
    rw [List.foldl_cons]
    simp only [List.mem_cons] at hx
    rcases hx with rfl | rfl | hx
    · exact le_trans (ih (Min.min x b) _ (List.mem_cons_self _ _))
        (min_le_left x b)
    · exact le_trans (ih (Min.min a x) _ (List.mem_cons_self _ _))
        (min_le_right a x)
    · exact ih (Min.min a b) x (List.mem_cons_of_mem _ hx)

lemma foldl_max_mem {α : Type} [LinearOrder α] (l : List α) (a : α) :
    l.foldl Max.max a ∈ a :: l := by
  induction l generalizing a with
  | nil => simp
  | cons b bs ih =>
    rw [List.foldl_cons]
    have h := ih (Max.max a b)
    simp only [List.mem_cons] at h ⊢
    rcases h with h | h
    · rcases max_choice a b with hm | hm
      · exact Or.inl (h.trans hm)
      · exact Or.inr (Or.inl (h.trans hm))
    · exact Or.inr (Or.inr h)

lemma le_foldl_max {α : Type} [LinearOrder α] (l : List α) (a : α) :
    ∀ x ∈ a :: l, x ≤ l.foldl Max.max a := by
  induction l generalizing a with
  | nil =>
    intro x hx
    simp only [List.mem_cons, List.not_mem_nil, or_false] at hx
    simp [hx]
  | cons b bs ih =>
    intro x hx
    rw [List.foldl_cons]
    simp only [List.mem_cons] at hx
    rcases hx with rfl | rfl | hx
    · exact le_trans (le_max_left x b)
        (ih (Max.max x b) _ (List.mem_cons_self _ _))
    · exact le_trans (le_max_right a x)
        (ih (Max.max a x) _ (List.mem_cons_self _ _))
    · exact ih (Max.max a b) x (List.mem_cons_of_mem _ hx)

/-- C6: for every text list and metric path whose extraction succeeds and is
non-empty, the style-delta row holds exactly the extracted values; its `min`
is the least and its `max` the greatest of those values (both attained);
`range = max − min`; and a cell carries a highlight class exactly when its
value is extremal. -/
theorem styleDelta_min_max_range (textsData : List JValue) (path : String)
    (row : StyleDeltaRow) (h : styleDeltaRow textsData path = some row) :
    extractMetricValues textsData path = some row.values ∧
    row.min ∈ row.values ∧ (∀ v ∈ row.values, row.min ≤ v) ∧
    row.max ∈ row.values ∧ (∀ v ∈ row.values, v ≤ row.max) ∧
    row.range = row.max - row.min ∧
    row.cells = row.values.map (fun val => styleCellClass val row.min row.max) ∧
    (∀ val : ℚ, styleCellClass val row.min row.max ≠ "" ↔
      (val = row.max ∨ val = row.min)) := by
  unfold styleDeltaRow at h
  cases hev : extractMetricValues textsData path with
  | none => rw [hev] at h; exact absurd h (by simp)
  | some l =>
    rw [hev] at h
    cases l with
    | nil => exact absurd h (by simp)
    | cons v vs =>
      simp only [Option.some.injEq] at h
      subst h
      refine ⟨rfl, foldl_min_mem vs v, foldl_min_le vs v,
        foldl_max_mem vs v, le_foldl_max vs v, rfl, rfl, fun val => ?_⟩
      unfold styleCellClass
      split_ifs with h1 h2
      · exact iff_of_true (by decide) (Or.inl h1)
      · exact iff_of_true (by decide) (Or.inr h2)
      · refine iff_of_false (by simp) ?_
        rintro (h | h)
        · exact h1 h
        · exact h2 h

end Comparison

/-- Two sample text objects carrying only a readability metric, used to
instantiate the style-delta theorem on concrete data. -/
def sampleReadabilityObjs : List Comparison.JValue :=
  [Comparison.JValue.obj [("style_metrics", Comparison.JValue.obj
      [("readability", Comparison.JValue.obj
        [("flesch_reading_ease", Comparison.JValue.num 30)])])],
    Comparison.JValue.obj [("style_metrics", Comparison.JValue.obj
      [("readability", Comparison.JValue.obj
        [("flesch_reading_ease", Comparison.JValue.num 50)])])]]

/-- The style-delta row the sample objects produce. -/
def sampleStyleRow : Comparison.StyleDeltaRow :=
  { values := [30, 50]
    min := 30
    max := 50
    range := 50 - 30
    cells := ["bg-primary bg-opacity-10", "bg-success bg-opacity-10"] }

namespace Comparison

/-- C6 witness: on the two sample texts the row is computed as expected, its
minimum 30 is attained, and its range is max − min. -/
theorem styleDelta_min_max_range_witness :
    styleDeltaRow sampleReadabilityObjs
        "style_metrics.readability.flesch_reading_ease" =
      some sampleStyleRow ∧
    sampleStyleRow.min ∈ sampleStyleRow.values ∧
    sampleStyleRow.range = sampleStyleRow.max - sampleStyleRow.min :=
  ⟨by rfl,
    (styleDelta_min_max_range sampleReadabilityObjs
      "style_metrics.readability.flesch_reading_ease" sampleStyleRow
      (by rfl)).2.1,
    (styleDelta_min_max_range sampleReadabilityObjs
      "style_metrics.readability.flesch_reading_ease" sampleStyleRow
      (by rfl)).2.2.2.2.2.1⟩

end Comparison

namespace WordCloud

/-- One entry of `bag_of_words.top_100` in the analysis JSON: a word and its
occurrence count. -/
structure WordCount where
  word : String
  count : Nat
deriving DecidableEq, Repr

/-- The font-size formula of `WordCloud.generate` in the word-cloud module:
`12 + ((count - minCount) / (maxCount - minCount)) * 48`. -/
def fontSize (count minCount maxCount : ℚ) : ℚ :=
  12 + ((count - minCount) / (maxCount - minCount)) * 48

/-- `Math.min(...wordData.map(w => w.count))` over a non-empty list: the fold
of binary min. -/
def minCount (w : WordCount) (ws : List WordCount) : ℚ :=
  (ws.map fun y => (y.count : ℚ)).foldl Min.min (w.count : ℚ)

/-- `Math.max(...wordData.map(w => w.count))` over a non-empty list. -/
def maxCount (w : WordCount) (ws : List WordCount) : ℚ :=
  (ws.map fun y => (y.count : ℚ)).foldl Max.max (w.count : ℚ)

/-- Embedding of the `words` array built by `WordCloud.generate`:
`wordData.map(w => ({text: w.word, size: 12 + ((w.count - minCount) /
(maxCount - minCount)) * 48}))`.  The empty list never reaches the formula
(`Math.max()` of an empty spread is -Infinity and nothing is drawn). -/
def generateWords : List WordCount → List (String × ℚ)
  | [] => []
  | w :: ws =>
    (w :: ws).map fun x =>
      (x.word, fontSize (x.count : ℚ) (minCount w ws) (maxCount w ws))

lemma fontSize_mono (mn mx c c' : ℚ) (hlt : mn < mx) (hcc : c ≤ c') :
    fontSize c mn mx ≤ fontSize c' mn mx := by
  unfold fontSize
  have hpos : (0 : ℚ) < mx - mn := by linarith
  gcongr

lemma fontSize_bounds (mn mx c : ℚ) (hlt : mn < mx) (h1 : mn ≤ c)
    (h2 : c ≤ mx) : 12 ≤ fontSize c mn mx ∧ fontSize c mn mx ≤ 60 := by
  unfold fontSize
  have hpos : (0 : ℚ) < mx - mn := by linarith
  have hq0 : (0 : ℚ) ≤ (c - mn) / (mx - mn) := by
    apply div_nonneg <;> linarith
  have hq1 : (c - mn) / (mx - mn) ≤ 1 := by
    rw [div_le_one hpos]
    linarith
  constructor <;> nlinarith

lemma count_mem_bounds (w : WordCount) (ws : List WordCount) (x : WordCount)
    (hx : x ∈ w :: ws) :
    minCount w ws ≤ (x.count : ℚ) ∧ (x.count : ℚ) ≤ maxCount w ws := by
  have hmem : (x.count : ℚ) ∈
      ((w.count : ℚ)) :: (ws.map fun y => (y.count : ℚ)) := by
    rcases List.mem_cons.mp hx with rfl | hx'
    · exact List.mem_cons_self _ _
    · exact List.mem_cons_of_mem _
        (List.mem_map_of_mem (fun y => (y.count : ℚ)) hx')
  exact ⟨Comparison.foldl_min_le _ _ _ hmem, Comparison.le_foldl_max _ _ _ hmem⟩

/-- C10: for every non-empty word-count list whose maximum count strictly
exceeds its minimum count, every font size computed by `WordCloud.generate`
lies in the closed interval [12, 60], and the size is monotonically
non-decreasing in the word's count; the strict max > min precondition is what
makes the scaling division well-defined. -/
theorem wordCloud_font_sizes (w : WordCount) (ws : List WordCount)
    (hlt : minCount w ws < maxCount w ws) :
    (∀ p ∈ generateWords (w :: ws), 12 ≤ p.2 ∧ p.2 ≤ 60) ∧
    (∀ x ∈ w :: ws, ∀ y ∈ w :: ws, x.count ≤ y.count →
      fontSize (x.count : ℚ) (minCount w ws) (maxCount w ws) ≤
        fontSize (y.count : ℚ) (minCount w ws) (maxCount w ws)) := by
  constructor
  · intro p hp
    unfold generateWords at hp
    rcases List.mem_map.mp hp with ⟨x, hx, rfl⟩
    obtain ⟨hmn, hmx⟩ := count_mem_bounds w ws x hx
    exact fontSize_bounds _ _ _ hlt hmn hmx
  · intro x hx y hy hxy
    exact fontSize_mono _ _ _ _ hlt (by exact_mod_cast hxy)

/-- C10 witness: for the two-word data [("power", 1), ("life", 3)] the
minimum count 1 is below the maximum 3, and the size computed for the
less-frequent word lies in [12, 60]. -/
theorem wordCloud_font_sizes_witness :
    minCount ⟨"power", 1⟩ [⟨"life", 3⟩] < maxCount ⟨"power", 1⟩ [⟨"life", 3⟩] ∧
    (12 ≤ (fontSize 1 (minCount ⟨"power", 1⟩ [⟨"life", 3⟩])
        (maxCount ⟨"power", 1⟩ [⟨"life", 3⟩])) ∧
      fontSize 1 (minCount ⟨"power", 1⟩ [⟨"life", 3⟩])
        (maxCount ⟨"power", 1⟩ [⟨"life", 3⟩]) ≤ 60) :=
  ⟨by norm_num [minCount, maxCount],
    (wordCloud_font_sizes ⟨"power", 1⟩ [⟨"life", 3⟩]
        (by norm_num [minCount, maxCount])).1
      ("power", fontSize 1 (minCount ⟨"power", 1⟩ [⟨"life", 3⟩])
        (maxCount ⟨"power", 1⟩ [⟨"life", 3⟩]))
      (by simp [generateWords])⟩

end WordCloud
